import Mathlib

/-!
Verification of the user-management service in `app/main.py`: the CSV Record
Producer (`process_csv_async`), the upload endpoint (`upload_csv`), the
background worker pool (`worker`), and the read endpoints (`get_users`,
`get_user`).  Each Python function is shallowly embedded as an executable
Lean definition; machine behaviour that can raise (Python exceptions,
`ZeroDivisionError`) is modelled with `Except`/`Option`.
-/

set_option autoImplicit false

deriving instance DecidableEq for Except

namespace FastAPICsv

/-! ### Data model

A parsed user record (`models.User` before persistence: no id yet) and a
stored row (id assigned by the store on successful commit). -/

structure UserRec where
  firstName : String
  lastName : String
  age : Int
  email : String
deriving DecidableEq, Repr

structure StoredUser where
  id : Nat
  firstName : String
  lastName : String
  age : Int
  email : String
deriving DecidableEq, Repr

/-! ### CSV input model

The uploaded byte stream is modelled at the level the code observes it:
whether `file_content.decode("utf-8")` succeeds (`decodable`), the header
row, and the data rows (each a list of cell strings).  The CSV library
(pandas) is an external collaborator; per the spec its row access
`row["Col"]` fails when the column is missing and `Age` must parse as an
integer. -/

structure CSVFile where
  decodable : Bool
  header : List String
  rows : List (List String)
deriving DecidableEq, Repr

inductive CsvError where
  | decodeError
  | missingColumn (name : String)
  | badAge (value : String)
deriving DecidableEq, Repr

/-- Decimal digit value of a character, `none` for non-digits. -/
def charDigit (c : Char) : Option Nat :=
  if '0' ≤ c ∧ c ≤ '9' then some (c.toNat - '0'.toNat) else none

/-- Accumulate a decimal numeral left to right; fails on a non-digit. -/
def parseNatAux : List Char → Nat → Option Nat
  | [], acc => some acc
  | c :: cs, acc =>
    match charDigit c with
    | none => none
    | some d => parseNatAux cs (acc * 10 + d)

/-- Model of Python `int(s)` on a cell: an optional sign followed by at least one
decimal digit. -/
def toIntStr (s : String) : Option Int :=
  match s.data with
  | [] => none
  | '-' :: cs =>
    if cs.isEmpty then none else (parseNatAux cs 0).map (fun n => -(n : Int))
  | '+' :: cs =>
    if cs.isEmpty then none else (parseNatAux cs 0).map (fun n => (n : Int))
  | cs => (parseNatAux cs 0).map (fun n => (n : Int))

/-- Model of Python `str.endswith`, over the character lists. -/
def strEndsWith (s p : String) : Bool :=
  p.data.isSuffixOf s.data

/-- Cell lookup by header name: the position of `name` in the header row,
then the cell at that position. -/
def getCol (header row : List String) (name : String) : Option String :=
  match header.findIdx? (fun c => c = name) with
  | none => none
  | some i => row.get? i

/-- Build one `models.User(...)` from a row, as the comprehension in
`process_csv_async` does: fields `FirstName`, `LastName`, `Age`, `Email`;
`Age` must parse as an integer. -/
def parseUser (header row : List String) : Except CsvError UserRec :=
  match getCol header row "FirstName" with
  | none => .error (.missingColumn "FirstName")
  | some fn =>
    match getCol header row "LastName" with
    | none => .error (.missingColumn "LastName")
    | some ln =>
      match getCol header row "Age" with
      | none => .error (.missingColumn "Age")
      | some ageStr =>
        match getCol header row "Email" with
        | none => .error (.missingColumn "Email")
        | some em =>
          match toIntStr ageStr with
          | none => .error (.badAge ageStr)
          | some a => .ok { firstName := fn, lastName := ln, age := a, email := em }

/-- Parse one chunk into the batch list `users`, in row order; the first
failing row aborts the whole comprehension. -/
def parseChunk (header : List String) : List (List String) → Except CsvError (List UserRec)
  | [] => .ok []
  | r :: rs =>
    match parseUser header r with
    | .error e => .error e
    | .ok u =>
      match parseChunk header rs with
      | .error e => .error e
      | .ok us => .ok (u :: us)

/-- Chunk splitting, structured on a fuel bound so it computes by
structural recursion; `fuel ≥ l.length` suffices (see
`chunksOfAux_fuel`). -/
def chunksOfAux (n : Nat) : Nat → List (List String) → List (List (List String))
  | _, [] => []
  | 0, _ :: _ => []
  | fuel + 1, x :: xs => (x :: xs).take n :: chunksOfAux n fuel ((x :: xs).drop n)

/-- Reading via `pd.read_csv(..., chunksize=n)`: split the data rows into consecutive
chunks of at most `n` rows. -/
def chunksOf (n : Nat) (l : List (List String)) : List (List (List String)) :=
  chunksOfAux n l.length l

/-- Constant `chunk_size = 1000` in `process_csv_async`. -/
def chunk_size : Nat := 1000

/-- The loop body of `process_csv_async`: for each chunk, build the batch
and `await queue.put(users)`.  `acc` is the list of batches already put on
the queue; on the first failing chunk the loop aborts, leaving the batches
queued so far on the queue. -/
def processChunksAux (header : List String) (acc : List (List UserRec)) :
    List (List (List String)) → List (List UserRec) × Option CsvError
  | [] => (acc, none)
  | c :: cs =>
    match parseChunk header c with
    | .error e => (acc, some e)
    | .ok users => processChunksAux header (acc ++ [users]) cs

/-- How an exception surfaces from the background task: wrapped as
`HTTPException(status_code=500, ...)` by the `except` clause of
`process_csv_async`, or unhandled (the `decode("utf-8")` call sits outside
the `try` block). -/
inductive TaskError where
  | http (status : Nat) (e : CsvError)
  | unhandled (e : CsvError)
deriving DecidableEq, Repr

/-- Model of `process_csv_async`: decode the stream (outside the `try`), then stream
chunks of `chunk_size` rows onto the queue; any exception inside the `try`
is re-raised as an `HTTPException(500)`.  Returns the batches put on the
queue, in order, and the error the task raised (if any). -/
def process_csv_async (f : CSVFile) : List (List UserRec) × Option TaskError :=
  if f.decodable = false then ([], some (.unhandled .decodeError))
  else
    match processChunksAux f.header [] (chunksOf chunk_size f.rows) with
    | (qs, none) => (qs, none)
    | (qs, some e) => (qs, some (.http 500 e))

/-- The batches the producer task put on the Work Queue. -/
def queuedBatches (f : CSVFile) : List (List UserRec) :=
  (process_csv_async f).1

/-- The error the producer task raised, if any. -/
def taskError (f : CSVFile) : Option TaskError :=
  (process_csv_async f).2

/-- Queue contents after the producer has parsed only the first `k` chunks
(the rest of the file not yet read): the streaming view of the loop. -/
def queuedAfterChunks (f : CSVFile) (k : Nat) : List (List UserRec) :=
  (processChunksAux f.header [] ((chunksOf chunk_size f.rows).take k)).1

/-! ### Upload endpoint

`upload_csv`: reject non-`.csv` filenames with `HTTPException(400)` before
reading the file; otherwise create the background task (fire-and-forget:
`asyncio.create_task`, never awaited) and return the acceptance response
immediately.  `task` records the detached task, `none` when no task was
created. -/

structure UploadOutcome where
  status : Nat
  success : Bool
  message : String
  task : Option CSVFile
deriving DecidableEq, Repr

def upload_csv (filename : String) (content : CSVFile) : UploadOutcome :=
  if (strEndsWith filename ".csv") = false then
    { status := 400, success := false
      message := "Invalid file type. Please upload a CSV file.", task := none }
  else
    { status := 200, success := true
      message := "CSV file is being processed in the background", task := some content }

/-- Work-Queue contents once the background task of the request (if any) has
run: the rejection path creates no task, so the queue is untouched. -/
def queueAfterRequest (q : List (List UserRec)) (o : UploadOutcome) :
    List (List UserRec) :=
  match o.task with
  | none => q
  | some f => q ++ queuedBatches f

/-! ### Worker model

One iteration of the `worker` loop: dequeue a batch, open a fresh session
(`anext(get_db())`), `add_all` + `commit`; on exception re-enqueue the
batch at the tail, then `rollback`; `finally: close`.  The environment
decides whether `commit` (or `add_all`) fails and whether `rollback`
itself fails; those are the two exception sources the code paths branch
on.  `SessEvent` records the session-level actions of the iteration in
program order. -/

inductive SessEvent where
  | opened | addAll | commitOk | commitFail | requeue | rollbackOk | rollbackFail | closed
deriving DecidableEq, Repr

inductive Outcome where
  | committed   -- try block completed, task_done
  | requeued    -- except block completed, loop continues
  | crashed     -- exception escaped the except block: the worker task dies
  | blocked     -- queue empty: worker suspended in `queue.get()`
deriving DecidableEq, Repr

structure WorkerState where
  queue : List (List UserRec)
  store : List StoredUser
  nextId : Nat
deriving DecidableEq, Repr

/-- The store assigns consecutive ids on insert, keeping row order. -/
def assignIds (n : Nat) : List UserRec → List StoredUser
  | [] => []
  | u :: us =>
    { id := n, firstName := u.firstName, lastName := u.lastName
      age := u.age, email := u.email } :: assignIds (n + 1) us

def workerStep (commitFails rollbackFails : Bool) (s : WorkerState) :
    WorkerState × Outcome × List SessEvent :=
  match s.queue with
  | [] => (s, .blocked, [])
  | batch :: rest =>
    if commitFails then
      -- except: queue.put(batch) first, then rollback; finally: close
      let s1 : WorkerState := { queue := rest ++ [batch], store := s.store, nextId := s.nextId }
      if rollbackFails then
        (s1, .crashed, [.opened, .addAll, .commitFail, .requeue, .rollbackFail, .closed])
      else
        (s1, .requeued, [.opened, .addAll, .commitFail, .requeue, .rollbackOk, .closed])
    else
      ({ queue := rest, store := s.store ++ assignIds s.nextId batch
         nextId := s.nextId + batch.length },
       .committed, [.opened, .addAll, .commitOk, .closed])

/-- A run of worker iterations, the commit of each attempt failing or not
according to `fails` (rollback never failing). -/
def runAttempts (fails : List Bool) (s : WorkerState) : WorkerState :=
  match fails with
  | [] => s
  | f :: fs => runAttempts fs (workerStep f false s).1

/-- Pool size fixed by `for _ in range(5): asyncio.create_task(worker())` at module load. -/
def poolSize : Nat := 5

/-- A crashed worker task is never restarted: the pool only shrinks. -/
def aliveWorkers (alive : Nat) (o : Outcome) : Nat :=
  if o = .crashed then alive - 1 else alive

/-! ### Read endpoints

`get_users`: `offset = (page - 1) * limit`, page slice via the native
`OFFSET`/`LIMIT`, full-scan count, `total_pages = (total + limit - 1) //
limit` (Python floor division, which raises `ZeroDivisionError` on a zero
divisor), `next_page = page < total_pages`. -/

structure UsersResponse where
  success : Bool
  data : List StoredUser
  total_pages : Int
  next_page : Bool
deriving DecidableEq, Repr

/-- Model of Python `//`: floor division, raising `ZeroDivisionError` when the
divisor is zero. -/
def pyFloorDiv (a b : Int) : Except String Int :=
  if b = 0 then .error "ZeroDivisionError" else .ok (Int.fdiv a b)

/-- The native `SELECT ... OFFSET o LIMIT l` scan of the store (claims only exercise
nonnegative `o`, `l`; negative values are clamped like the store would
return nothing meaningful anyway). -/
def storeQuery (store : List StoredUser) (offset limit : Int) : List StoredUser :=
  (store.drop offset.toNat).take limit.toNat

def get_users (limit page : Int) (store : List StoredUser) :
    Except String UsersResponse :=
  let offset := (page - 1) * limit
  let users := storeQuery store offset limit
  let total_users : Int := (store.length : Int)
  match pyFloorDiv (total_users + limit - 1) limit with
  | .error e => .error e
  | .ok total_pages =>
    .ok { success := true, data := users, total_pages := total_pages
          next_page := decide (page < total_pages) }

/-- Model of `get_user`: `filter(User.id == user_id)` then `.first()`; 404 when no
row matches. -/
def get_user (user_id : Int) (store : List StoredUser) :
    Except (Nat × String) StoredUser :=
  match store.find? (fun u => (u.id : Int) = user_id) with
  | none => .error (404, "User not found")
  | some u => .ok u

/-! Chunking lemmas. -/

/-- Fuel irrelevance: any fuel of at least the length of the list gives the
same chunking. -/
theorem chunksOfAux_fuel (n : Nat) (hn : 1 ≤ n) :
    ∀ (fuel fuel' : Nat) (l : List (List String)),
      l.length ≤ fuel → l.length ≤ fuel' →
      chunksOfAux n fuel l = chunksOfAux n fuel' l := by
  intro fuel
  induction fuel with
  | zero =>
    intro fuel' l hf hf'
    have : l = [] := List.eq_nil_of_length_eq_zero (Nat.le_zero.mp hf)
    subst this
    cases fuel' <;> rfl
  | succ f ih =>
    intro fuel' l hf hf'
    cases l with
    | nil => cases fuel' <;> rfl
    | cons x xs =>
      cases fuel' with
      | zero => simp at hf'
      | succ f' =>
        simp only [chunksOfAux]
        congr 1
        apply ih
        · simp only [List.length_drop, List.length_cons] at hf ⊢
          omega
        · simp only [List.length_drop, List.length_cons] at hf' ⊢
          omega

/-- Unfolding of `chunksOf` on a nonempty list. -/
theorem chunksOf_cons (n : Nat) (hn : 1 ≤ n) (l : List (List String)) (hl : l ≠ []) :
    chunksOf n l = l.take n :: chunksOf n (l.drop n) := by
  obtain ⟨x, xs, rfl⟩ := List.exists_cons_of_ne_nil hl
  show chunksOfAux n (x :: xs).length (x :: xs) = _
  simp only [List.length_cons, chunksOfAux]
  congr 1
  apply chunksOfAux_fuel n hn
  · simp only [List.length_drop, List.length_cons]
    omega
  · exact Nat.le_refl _

/-- Every chunk has at most `n` rows. -/
theorem length_le_of_mem_chunksOfAux (n fuel : Nat) (l : List (List String))
    (c : List (List String)) (hc : c ∈ chunksOfAux n fuel l) : c.length ≤ n := by
  induction fuel generalizing l with
  | zero => cases l <;> simp [chunksOfAux] at hc
  | succ f ih =>
    cases l with
    | nil => simp [chunksOfAux] at hc
    | cons x xs =>
      simp only [chunksOfAux, List.mem_cons] at hc
      rcases hc with rfl | hc
      · exact le_trans (Nat.le_of_eq (by simp)) (List.length_take_le n (x :: xs))
      · exact ih _ hc

theorem length_le_of_mem_chunksOf (n : Nat) (l : List (List String))
    (c : List (List String)) (hc : c ∈ chunksOf n l) : c.length ≤ n :=
  length_le_of_mem_chunksOfAux n l.length l c hc

/-- Chunking loses and reorders nothing: the concatenation of the chunks is
the original row list. -/
theorem chunksOfAux_flatten (n : Nat) (hn : 1 ≤ n) :
    ∀ (fuel : Nat) (l : List (List String)), l.length ≤ fuel →
      (chunksOfAux n fuel l).flatten = l := by
  intro fuel
  induction fuel with
  | zero =>
    intro l hf
    have : l = [] := List.eq_nil_of_length_eq_zero (Nat.le_zero.mp hf)
    subst this; rfl
  | succ f ih =>
    intro l hf
    cases l with
    | nil => rfl
    | cons x xs =>
      simp only [chunksOfAux, List.flatten_cons]
      rw [ih]
      · exact List.take_append_drop n (x :: xs)
      · simp only [List.length_drop, List.length_cons] at *
        omega

theorem chunksOf_flatten (n : Nat) (hn : 1 ≤ n) (l : List (List String)) :
    (chunksOf n l).flatten = l :=
  chunksOfAux_flatten n hn l.length l (Nat.le_refl _)


/-- A chunk parses to `b` exactly when every row parses to the
corresponding record of `b`, in order. -/
theorem parseChunk_ok_iff (h : List String) (c : List (List String)) (b : List UserRec) :
    parseChunk h c = .ok b ↔
      List.Forall₂ (fun r u => parseUser h r = .ok u) c b := by
  induction c generalizing b with
  | nil =>
    constructor
    · intro hb
      cases hb
      exact List.Forall₂.nil
    · intro hb
      cases hb
      rfl
  | cons r rs ih =>
    simp only [parseChunk]
    cases hr : parseUser h r with
    | error e =>
      constructor
      · intro hb; cases hb
      · intro hb
        cases hb with
        | cons h1 h2 => rw [hr] at h1; cases h1
    | ok u =>
      cases hus : parseChunk h rs with
      | error e =>
        constructor
        · intro hb; cases hb
        · intro hb
          cases hb with
          | cons h1 h2 =>
            rw [hr] at h1
            cases h1
            rw [(ih _).mpr h2] at hus
            cases hus
      | ok us =>
        constructor
        · intro hb
          cases hb
          exact List.Forall₂.cons hr ((ih us).mp hus)
        · intro hb
          cases hb with
          | cons h1 h2 =>
            rw [hr] at h1
            cases h1
            rw [(ih _).mpr h2] at hus
            cases hus
            rfl

/-- The loop enqueues exactly the parsed batches when every chunk parses. -/
theorem processChunksAux_ok (h : List String) (cs : List (List (List String)))
    (bs : List (List UserRec))
    (hok : List.Forall₂ (fun c b => parseChunk h c = .ok b) cs bs) :
    ∀ acc, processChunksAux h acc cs = (acc ++ bs, none) := by
  induction hok with
  | nil => intro acc; simp [processChunksAux]
  | cons h1 h2 ih =>
    intro acc
    simp only [processChunksAux, h1, ih, List.append_assoc]
    rfl

/-- From decidable chunk success to the parsed batch list. -/
theorem exists_forall₂_of_isOk (h : List String) (cs : List (List (List String)))
    (hok : ∀ c ∈ cs, (parseChunk h c).isOk = true) :
    ∃ bs, List.Forall₂ (fun c b => parseChunk h c = .ok b) cs bs := by
  induction cs with
  | nil => exact ⟨[], List.Forall₂.nil⟩
  | cons c cs ih =>
    have hc := hok c (List.mem_cons_self c cs)
    cases hc' : parseChunk h c with
    | error e => rw [hc'] at hc; cases hc
    | ok b =>
      obtain ⟨bs, hbs⟩ := ih (fun c hc => hok c (List.mem_cons_of_mem _ hc))
      exact ⟨b :: bs, List.Forall₂.cons hc' hbs⟩

/-- On a failing run the queued batches are the parses of the chunks before
the first failing chunk; nothing at or after the failing chunk is queued. -/
theorem processChunksAux_error (h : List String) :
    ∀ (cs : List (List (List String))) (acc : List (List UserRec)) (e : CsvError),
      (processChunksAux h acc cs).2 = some e →
      ∃ cs1 c cs2 bs,
        cs = cs1 ++ c :: cs2 ∧
        List.Forall₂ (fun ch b => parseChunk h ch = .ok b) cs1 bs ∧
        parseChunk h c = .error e ∧
        (processChunksAux h acc cs).1 = acc ++ bs := by
  intro cs
  induction cs with
  | nil => intro acc e he; simp [processChunksAux] at he
  | cons c cs ih =>
    intro acc e he
    cases hc : parseChunk h c with
    | error e' =>
      simp only [processChunksAux, hc] at he ⊢
      cases he
      exact ⟨[], c, cs, [], rfl, List.Forall₂.nil, hc, by simp⟩
    | ok b =>
      simp only [processChunksAux, hc] at he ⊢
      obtain ⟨cs1, c', cs2, bs, hcs, hfa, hc', hq⟩ := ih (acc ++ [b]) e he
      exact ⟨c :: cs1, c', cs2, b :: bs, by rw [hcs]; rfl,
        List.Forall₂.cons hc hfa, hc', by rw [hq]; simp⟩


/-- Ceiling division as the spec words it: `ceil(total / limit)`, i.e. the
quotient rounded up when the division is not exact. -/
def specCeilDiv (t l : Nat) : Nat :=
  if t % l = 0 then t / l else t / l + 1

/-- The formula of the code, `(t + l - 1) / l`, is ceiling division. -/
theorem add_pred_div_eq_specCeilDiv (t l : Nat) (hl : 1 ≤ l) :
    (t + l - 1) / l = specCeilDiv t l := by
  have hqr : t / l * l + t % l = t := Nat.div_add_mod' t l
  have hr : t % l < l := Nat.mod_lt t hl
  by_cases h0 : t % l = 0
  · have h2 : l - 1 < l := by omega
    have harr : t + l - 1 = (l - 1) + (t / l) * l := by omega
    rw [specCeilDiv, if_pos h0, harr, Nat.add_mul_div_right _ _ hl,
      Nat.div_eq_of_lt h2, Nat.zero_add]
  · have h2 : t % l - 1 < l := by omega
    have hmul : (t / l + 1) * l = t / l * l + l := by ring
    have harr : t + l - 1 = (t % l - 1) + (t / l + 1) * l := by omega
    rw [specCeilDiv, if_neg h0, harr, Nat.add_mul_div_right _ _ hl,
      Nat.div_eq_of_lt h2, Nat.zero_add]

/-- The integer floor-division computation of `get_users` agrees with
ceiling division of the row count by the page size. -/
theorem fdiv_total_pages (t l : Nat) (hl : 1 ≤ l) :
    Int.fdiv ((t : Int) + (l : Int) - 1) (l : Int) = (specCeilDiv t l : Int) := by
  have h1 : (t : Int) + (l : Int) - 1 = ((t + l - 1 : Nat) : Int) := by
    omega
  rw [h1, ← Int.ofNat_fdiv, add_pred_div_eq_specCeilDiv t l hl]


/-- Pointwise strengthening of `Forall₂` using membership in the first
list. -/
theorem forall₂_imp_mem {α β : Type} {R S : α → β → Prop} :
    ∀ {l1 : List α} {l2 : List β}, List.Forall₂ R l1 l2 →
      (∀ a b, a ∈ l1 → R a b → S a b) → List.Forall₂ S l1 l2 := by
  intro l1 l2 h
  induction h with
  | nil => intro _; exact List.Forall₂.nil
  | cons h1 h2 ih =>
    intro himp
    exact List.Forall₂.cons (himp _ _ (List.mem_cons_self _ _) h1)
      (ih fun a b ha hr => himp a b (List.mem_cons_of_mem _ ha) hr)

/-! Concrete fixtures used by counterexamples and witnesses. -/

def validHeader : List String := ["FirstName", "LastName", "Age", "Email"]

def demoRow : List String := ["Ann", "Lee", "30", "ann@x.io"]

def badAgeRow : List String := ["Bob", "Ray", "x", "bob@x.io"]

/-- A file of 1001 rows: the first chunk of 1000 rows is fine, row 1001 has
a non-integer Age. -/
def bigFile : CSVFile :=
  { decodable := true, header := validHeader
    rows := List.replicate 1000 demoRow ++ [badAgeRow] }

/-- A one-row file whose only row has a non-integer Age. -/
def smallBadFile : CSVFile :=
  { decodable := true, header := validHeader, rows := [badAgeRow] }

/-- A small well-formed file. -/
def tinyFile : CSVFile :=
  { decodable := true, header := validHeader, rows := [demoRow, demoRow] }

/-- A store of 25 rows, as in the pagination example of the spec. -/
def demoStore25 : List StoredUser :=
  assignIds 0 (List.replicate 25 { firstName := "A", lastName := "B", age := 30, email := "a@x.io" })

/-- A store of three rows with ids 0, 1, 2. -/
def demoStore3 : List StoredUser :=
  assignIds 0 [{ firstName := "A", lastName := "B", age := 30, email := "a@x.io" },
    { firstName := "C", lastName := "D", age := 40, email := "c@x.io" },
    { firstName := "E", lastName := "F", age := 50, email := "e@x.io" }]


/-- C1: on an exception during insert/commit the worker rolls the session
back and re-enqueues the same batch (identical contents) at the tail of
the Work Queue, the failed attempt inserting nothing into the store; a
successful attempt inserts the whole batch and commits; after any number
of failed attempts followed by a successful one, the records of the batch
sit in the store exactly once. -/
theorem worker_retry_inserts_exactly_once
    (batch : List UserRec) (rest : List (List UserRec))
    (st : List StoredUser) (n k : Nat) :
    workerStep true false ⟨batch :: rest, st, n⟩ =
      (⟨rest ++ [batch], st, n⟩, .requeued,
        [.opened, .addAll, .commitFail, .requeue, .rollbackOk, .closed]) ∧
    workerStep false false ⟨batch :: rest, st, n⟩ =
      (⟨rest, st ++ assignIds n batch, n + batch.length⟩, .committed,
        [.opened, .addAll, .commitOk, .closed]) ∧
    runAttempts (List.replicate k true ++ [false]) ⟨[batch], st, n⟩ =
      ⟨[], st ++ assignIds n batch, n + batch.length⟩ := by
  refine ⟨rfl, rfl, ?_⟩
  induction k with
  | zero => rfl
  | succ k ih =>
    rw [List.replicate_succ]
    exact ih


/-- C4: every worker iteration that dequeues a batch opens a fresh
persistence session for that attempt (the event trace of the attempt
starts with its own `opened`, and holds exactly one) and closes that
session on every exit path, whether the attempt commits, requeues, or
crashes (the trace always ends with `closed`). -/
theorem worker_session_always_closed (cf rf : Bool) (s : WorkerState)
    (h : s.queue ≠ []) :
    ((workerStep cf rf s).2.2).head? = some .opened ∧
    ((workerStep cf rf s).2.2).getLast? = some .closed ∧
    ((workerStep cf rf s).2.2).count .opened = 1 ∧
    ((workerStep cf rf s).2.2).count .closed = 1 := by
  obtain ⟨q, st, n⟩ := s
  cases q with
  | nil => simp at h
  | cons b rest => cases cf <;> cases rf <;> exact ⟨rfl, rfl, rfl, rfl⟩

/-- C10: when commit fails the batch is re-enqueued before rollback is
issued, so a rollback failure does not lose the batch (it is already back
on the tail of the queue); but the exception escapes the worker loop, the
task dies, and the pool shrinks below its fixed size of 5. -/
theorem worker_crash_requeues_then_dies (batch : List UserRec)
    (rest : List (List UserRec)) (st : List StoredUser) (n : Nat) :
    workerStep true true ⟨batch :: rest, st, n⟩ =
      (⟨rest ++ [batch], st, n⟩, .crashed,
        [.opened, .addAll, .commitFail, .requeue, .rollbackFail, .closed]) ∧
    batch ∈ (workerStep true true ⟨batch :: rest, st, n⟩).1.queue ∧
    ((workerStep true true ⟨batch :: rest, st, n⟩).2.2).indexOf .requeue <
      ((workerStep true true ⟨batch :: rest, st, n⟩).2.2).indexOf .rollbackFail ∧
    aliveWorkers poolSize .crashed < poolSize := by
  have hstep : workerStep true true ⟨batch :: rest, st, n⟩ =
      (⟨rest ++ [batch], st, n⟩, .crashed,
        [.opened, .addAll, .commitFail, .requeue, .rollbackFail, .closed]) := rfl
  refine ⟨hstep, ?_, ?_, by decide⟩
  · rw [hstep]
    simp
  · change [SessEvent.opened, SessEvent.addAll, SessEvent.commitFail, SessEvent.requeue,
        SessEvent.rollbackFail, SessEvent.closed].indexOf SessEvent.requeue <
      [SessEvent.opened, SessEvent.addAll, SessEvent.commitFail, SessEvent.requeue,
        SessEvent.rollbackFail, SessEvent.closed].indexOf SessEvent.rollbackFail
    decide

/-- C9: calling `get_users` with `limit = 0` always raises
`ZeroDivisionError` in the total-pages computation instead of returning a
response; the handler validates neither `page` nor `limit`. -/
theorem get_users_zero_limit_raises (page : Int) (store : List StoredUser) :
    get_users 0 page store = .error "ZeroDivisionError" := rfl


/-- C6: for `page ≥ 1` and `limit ≥ 1`, `get_users` answers with the page
slice at `offset = (page - 1) * limit`, `total_pages` equal to the ceiling
of the row count over `limit`, and `next_page = (page < total_pages)`;
with 25 stored users and `limit = 10`, page 1 gives `total_pages = 3`,
`next_page = true` and 10 records, and page 3 gives `next_page = false`
with 5 records. -/
theorem get_users_pagination (page limit : Int) (store : List StoredUser)
    (hp : 1 ≤ page) (hl : 1 ≤ limit) :
    (∃ r, get_users limit page store = .ok r ∧
        r.data = storeQuery store ((page - 1) * limit) limit ∧
        r.total_pages = (specCeilDiv store.length limit.toNat : Int) ∧
        r.next_page = decide (page < r.total_pages)) ∧
    (get_users 10 1 demoStore25).map
        (fun r => (r.total_pages, r.next_page, r.data.length)) = .ok (3, true, 10) ∧
    (get_users 10 3 demoStore25).map
        (fun r => (r.total_pages, r.next_page, r.data.length)) = .ok (3, false, 5) := by
  refine ⟨?_, by decide, by decide⟩
  have hne : limit ≠ 0 := by omega
  have hok : get_users limit page store = .ok
      { success := true
        data := storeQuery store ((page - 1) * limit) limit
        total_pages := Int.fdiv ((store.length : Int) + limit - 1) limit
        next_page := decide (page < Int.fdiv ((store.length : Int) + limit - 1) limit) } := by
    simp [get_users, pyFloorDiv, hne]
  refine ⟨_, hok, rfl, ?_, rfl⟩
  have hcast : (limit.toNat : Int) = limit := Int.toNat_of_nonneg (by omega)
  calc Int.fdiv ((store.length : Int) + limit - 1) limit
      = Int.fdiv ((store.length : Int) + (limit.toNat : Int) - 1) (limit.toNat : Int) := by
        rw [hcast]
    _ = (specCeilDiv store.length limit.toNat : Int) :=
        fdiv_total_pages store.length limit.toNat (by omega)

/-- C7: `get_user` answers 404 with detail "User not found" exactly when
no stored row has the requested id; when a row with that id exists, the
response is such a stored row (all fields as stored). -/
theorem get_user_404_iff (user_id : Int) (store : List StoredUser) :
    (get_user user_id store = .error (404, "User not found") ↔
      ∀ u ∈ store, (u.id : Int) ≠ user_id) ∧
    ((∃ u ∈ store, (u.id : Int) = user_id) →
      ∃ v ∈ store, (v.id : Int) = user_id ∧ get_user user_id store = .ok v) := by
  constructor
  · cases hf : store.find? (fun u => (u.id : Int) = user_id) with
    | none =>
      simp only [get_user, hf]
      constructor
      · intro _ u hu
        have := List.find?_eq_none.mp hf u hu
        simpa using this
      · intro _
        trivial
    | some v =>
      simp only [get_user, hf]
      constructor
      · intro h
        simp at h
      · intro hall
        have h1 := List.find?_some hf
        have h2 := List.mem_of_find?_eq_some hf
        exact absurd (by simpa using h1) (hall v h2)
  · rintro ⟨u, hu, hid⟩
    cases hf : store.find? (fun u => (u.id : Int) = user_id) with
    | none =>
      have := List.find?_eq_none.mp hf u hu
      simp [hid] at this
    | some v =>
      have h1 := List.find?_some hf
      have h2 := List.mem_of_find?_eq_some hf
      exact ⟨v, h2, by simpa using h1, by simp [get_user, hf]⟩

/-- C8: an upload whose filename does not end in `.csv` is answered with
the 400 error before any task is created, leaving the Work Queue exactly
as it was; an upload whose filename ends in `.csv` is answered with the
success message "CSV file is being processed in the background". -/
theorem upload_rejects_non_csv (filename : String) (content : CSVFile)
    (q : List (List UserRec)) :
    (strEndsWith filename ".csv" = false →
      upload_csv filename content =
        { status := 400, success := false
          message := "Invalid file type. Please upload a CSV file.", task := none } ∧
      queueAfterRequest q (upload_csv filename content) = q) ∧
    (strEndsWith filename ".csv" = true →
      upload_csv filename content =
        { status := 200, success := true
          message := "CSV file is being processed in the background"
          task := some content }) := by
  constructor
  · intro h
    constructor
    · simp [upload_csv, h]
    · simp [upload_csv, h, queueAfterRequest]
  · intro h
    simp [upload_csv, h]


/-- C5: on a valid CSV input the producer raises nothing and produces the
chunks of at most `chunk_size = 1000` rows in file order, each batch
parsed row-for-row in order from its chunk (and the chunks concatenate
back to the input rows); moreover after only the first `k` chunks have
been parsed, the first `k` batches are already on the queue, independent
of the rest of the file. -/
theorem producer_streams_ordered_batches (f : CSVFile) (hd : f.decodable = true)
    (hok : ∀ c ∈ chunksOf chunk_size f.rows, (parseChunk f.header c).isOk = true) :
    taskError f = none ∧
    List.Forall₂ (fun c b => b.length ≤ chunk_size ∧
        List.Forall₂ (fun r u => parseUser f.header r = .ok u) c b)
      (chunksOf chunk_size f.rows) (queuedBatches f) ∧
    (chunksOf chunk_size f.rows).flatten = f.rows ∧
    (∀ k, queuedAfterChunks f k = (queuedBatches f).take k) := by
  obtain ⟨bs, hbs⟩ := exists_forall₂_of_isOk f.header _ hok
  have hrun := processChunksAux_ok f.header _ bs hbs []
  have hq : queuedBatches f = bs := by
    simp [queuedBatches, process_csv_async, hd, hrun]
  have hte : taskError f = none := by
    simp [taskError, process_csv_async, hd, hrun]
  refine ⟨hte, ?_, chunksOf_flatten chunk_size (by norm_num [chunk_size]) f.rows, ?_⟩
  · rw [hq]
    refine forall₂_imp_mem hbs ?_
    intro c b hc hcb
    have hinner := (parseChunk_ok_iff f.header c b).mp hcb
    have hlen : c.length = b.length := List.Forall₂.length_eq hinner
    exact ⟨hlen ▸ length_le_of_mem_chunksOf chunk_size f.rows c hc, hinner⟩
  · intro k
    have htake := List.forall₂_take k hbs
    have hrunk := processChunksAux_ok f.header _ _ htake []
    rw [hq]
    simp [queuedAfterChunks, hrunk]


set_option maxRecDepth 100000 in
/-- C2 counterexample: `bigFile` has 1001 rows whose last row has a
non-integer Age; the task fails (HTTP 500 raised in the background task),
yet the first batch of 1000 records has already been placed on the Work
Queue — the upload is not rejected atomically. -/
theorem partial_queueing_cex :
    taskError bigFile = some (.http 500 (.badAge "x")) ∧
    queuedBatches bigFile ≠ [] ∧
    (queuedBatches bigFile).length = 1 := by
  refine ⟨by decide, by decide, by decide⟩

/-- C2 amended: when processing an upload fails, the batches already on
the Work Queue are exactly the parses of the chunks that fully parsed
before the first failing chunk (none at all for an undecodable stream);
the failing chunk and everything after it are never queued. -/
theorem failing_upload_queues_preceding_chunks (f : CSVFile) (e : TaskError)
    (he : taskError f = some e) :
    (f.decodable = false → e = .unhandled .decodeError ∧ queuedBatches f = []) ∧
    (f.decodable = true →
      ∃ ce cs1 c cs2 bs,
        e = .http 500 ce ∧
        chunksOf chunk_size f.rows = cs1 ++ c :: cs2 ∧
        List.Forall₂ (fun ch b => parseChunk f.header ch = .ok b) cs1 bs ∧
        parseChunk f.header c = .error ce ∧
        queuedBatches f = bs) := by
  constructor
  · intro hd
    simp only [taskError, process_csv_async, hd] at he
    simp only [queuedBatches, process_csv_async, hd]
    simp at he ⊢
    exact he.symm
  · intro hd
    cases hp : processChunksAux f.header [] (chunksOf chunk_size f.rows) with
    | mk qs oe =>
      have hqb : queuedBatches f = qs := by
        simp only [queuedBatches, process_csv_async, hd, hp]
        cases oe <;> simp
      cases oe with
      | none =>
        simp only [taskError, process_csv_async, hd, hp] at he
        simp at he
      | some ce =>
        have hee : e = .http 500 ce := by
          simp only [taskError, process_csv_async, hd, hp] at he
          simp at he
          exact he.symm
        obtain ⟨cs1, c, cs2, bs, hcs, hfa, hc, hq⟩ :=
          processChunksAux_error f.header (chunksOf chunk_size f.rows) [] ce (by rw [hp])
        rw [hp] at hq
        simp at hq
        exact ⟨ce, cs1, c, cs2, bs, hee, hcs, hfa, hc, by rw [hqb, hq]⟩


/-- C3 counterexample: `smallBadFile` has a row whose Age does not parse,
yet the upload request is answered with the plain success response — the
parse failure does not reach the HTTP response of the upload request. -/
theorem upload_error_not_synchronous_cex :
    taskError smallBadFile = some (.http 500 (.badAge "x")) ∧
    upload_csv "users.csv" smallBadFile =
      { status := 200, success := true
        message := "CSV file is being processed in the background"
        task := some smallBadFile } := by
  refine ⟨by decide, by decide⟩

/-- C3 amended: for a `.csv` filename the upload response is the success
acceptance regardless of the content; decode, missing-column and bad-Age
failures are raised only inside the detached background task — parse
failures wrapped as `HTTPException(500)`, decode failures unhandled — and
never propagate to the HTTP response of the upload request. -/
theorem upload_error_stays_in_task (filename : String) (f : CSVFile)
    (hname : strEndsWith filename ".csv" = true) :
    upload_csv filename f =
      { status := 200, success := true
        message := "CSV file is being processed in the background"
        task := some f } ∧
    (f.decodable = true → ∀ e, taskError f = some e → ∃ ce, e = .http 500 ce) ∧
    (f.decodable = false → taskError f = some (.unhandled .decodeError)) := by
  refine ⟨by simp [upload_csv, hname], ?_, ?_⟩
  · intro hd e he
    cases hp : processChunksAux f.header [] (chunksOf chunk_size f.rows) with
    | mk qs oe =>
      simp only [taskError, process_csv_async, hd, hp] at he
      cases oe with
      | none => simp at he
      | some ce =>
        simp at he
        exact ⟨ce, he.symm⟩
  · intro hd
    simp [taskError, process_csv_async, hd]


/-- An upload whose bytes do not decode as UTF-8. -/
def undecodableFile : CSVFile :=
  { decodable := false, header := [], rows := [] }

/-- Witness for C2 amended, at the undecodable upload. -/
theorem failing_upload_queues_preceding_chunks_witness :
    TaskError.unhandled CsvError.decodeError = TaskError.unhandled CsvError.decodeError ∧
    queuedBatches undecodableFile = [] :=
  (failing_upload_queues_preceding_chunks undecodableFile
    (.unhandled .decodeError) (by decide)).1 (by decide)

/-- Witness for C3 amended, at a well-named upload. -/
theorem upload_error_stays_in_task_witness :
    upload_csv "users2.csv" tinyFile =
      { status := 200, success := true
        message := "CSV file is being processed in the background"
        task := some tinyFile } :=
  (upload_error_stays_in_task "users2.csv" tinyFile (by decide)).1

/-- Witness for C4, at a singleton queue. -/
theorem worker_session_always_closed_witness :
    ((workerStep true false ⟨[[]], [], 0⟩).2.2).head? = some .opened ∧
    ((workerStep true false ⟨[[]], [], 0⟩).2.2).getLast? = some .closed ∧
    ((workerStep true false ⟨[[]], [], 0⟩).2.2).count .opened = 1 ∧
    ((workerStep true false ⟨[[]], [], 0⟩).2.2).count .closed = 1 :=
  worker_session_always_closed true false ⟨[[]], [], 0⟩ (by decide)

/-- Witness for C5, at the two-row valid file. -/
theorem producer_streams_ordered_batches_witness :
    taskError tinyFile = none ∧
    queuedAfterChunks tinyFile 1 = (queuedBatches tinyFile).take 1 :=
  ⟨(producer_streams_ordered_batches tinyFile rfl (by decide)).1,
   (producer_streams_ordered_batches tinyFile rfl (by decide)).2.2.2 1⟩

/-- Witness for C6, at the 25-user store. -/
theorem get_users_pagination_witness :
    (get_users 10 1 demoStore25).map
      (fun r => (r.total_pages, r.next_page, r.data.length)) = .ok (3, true, 10) :=
  (get_users_pagination 1 10 demoStore25 (by decide) (by decide)).2.1

/-- Witness for C7, at the three-user store. -/
theorem get_user_404_iff_witness :
    get_user 99 demoStore3 = .error (404, "User not found") ∧
    ∃ v ∈ demoStore3, (v.id : Int) = 1 ∧ get_user 1 demoStore3 = .ok v :=
  ⟨(get_user_404_iff 99 demoStore3).1.mpr (by decide),
   (get_user_404_iff 1 demoStore3).2 (by decide)⟩

/-- Witness for C8, at a `.txt` and a `.csv` filename. -/
theorem upload_rejects_non_csv_witness :
    (upload_csv "data.txt" tinyFile =
      { status := 400, success := false
        message := "Invalid file type. Please upload a CSV file.", task := none } ∧
      queueAfterRequest [] (upload_csv "data.txt" tinyFile) = []) ∧
    upload_csv "data2.csv" tinyFile =
      { status := 200, success := true
        message := "CSV file is being processed in the background"
        task := some tinyFile } :=
  ⟨(upload_rejects_non_csv "data.txt" tinyFile []).1 (by decide),
   (upload_rejects_non_csv "data2.csv" tinyFile []).2 (by decide)⟩

end FastAPICsv
